import Mathlib

/-!
Shallow embedding of `infra/cifuzz/fuzz_target.py` (module `fuzz_target`),
which manages running a single fuzz target: bounded execution in a docker
sandbox, crash extraction from the captured stderr, reproducibility
confirmation, and seed-corpus download.

External effects (the docker process, the trial exit codes, the HTTP fetch,
the filesystem) are supplied as explicit environment values; the Python
control flow over them is translated line by line.
-/

/-- Python exceptions that the embedded code can raise to its caller. -/
inductive PyError
  | attributeError
  | unicodeDecodeError
  | urlError
deriving DecidableEq, Repr

deriving instance DecidableEq for Except

/-- Python truthiness of an `Optional[str]` value: `None` and `""` are falsy. -/
def pyFalsyStr : Option String → Bool
  | none => true
  | some s => s == ""

/-- `os.path.join` for two components (posixpath semantics): an absolute
second component discards the first; a separator is inserted unless the
first component is empty or already ends with one. -/
def os.path.join (a b : String) : String :=
  if b.toList.head? = some '/' then b
  else if a.toList.isEmpty || a.toList.getLast? = some '/' then a ++ b
  else a ++ "/" ++ b

/-- `os.path.join` for three components, as `join(join(a, b), c)`. -/
def os.path.join3 (a b c : String) : String :=
  os.path.join (os.path.join a b) c

/-- `os.path.basename`: the text after the final slash. -/
def os.path.basename (p : String) : String :=
  String.mk ((p.toList.reverse.takeWhile (fun c => c != '/')).reverse)

/-- `os.path.dirname`: the text up to the final slash, with trailing slashes
stripped unless the result is all slashes. -/
def os.path.dirname (p : String) : String :=
  let head : List Char := (p.toList.reverse.dropWhile (fun c => c != '/')).reverse
  if head.all (fun c => c == '/') then String.mk head
  else String.mk ((head.reverse.dropWhile (fun c => c == '/')).reverse)

/-- The module constant `LIBFUZZER_OPTIONS`. -/
def LIBFUZZER_OPTIONS : String := "-seed=1337 -len_control=0"

/-- The module constant `REPRODUCE_ATTEMPTS`: number of reproduce attempts. -/
def REPRODUCE_ATTEMPTS : Nat := 10

/-- The state of a `FuzzTarget` object.  `corpus_attr` models the
`corpus_dir` Python attribute slot: `Option.none` means the attribute was
never assigned (reading it raises `AttributeError`); `some v` means it holds
the Python value `v` (itself `None` or a string). -/
structure FuzzTarget where
  target_name : String
  duration : Nat
  target_path : String
  out_dir : String
  project_name : Option String
  corpus_attr : Option (Option String)
deriving DecidableEq, Repr

/-- `FuzzTarget.__init__`: stores the constructor arguments and derives
`target_name` from the binary path; it never initializes `corpus_dir`. -/
def FuzzTarget.init (target_path : String) (duration : Nat) (out_dir : String)
    (project_name : Option String) : FuzzTarget :=
  { target_name := os.path.basename target_path
    duration := duration
    target_path := target_path
    out_dir := out_dir
    project_name := project_name
    corpus_attr := none }

/-! ### The regex `\bTest unit written to \.\/([^\s]+)` -/

/-- The `\w` class restricted to ASCII inputs: Python's Unicode `\w`
matches, below code point 128, exactly the letters, the digits and `_`. -/
def isWordChar (c : Char) : Bool := c.isAlphanum || c == '_'

/-- The `\s` class restricted to ASCII inputs: Python's Unicode `\s`
matches, below code point 128, exactly `\t`, `\n`, `\x0b`, `\x0c`, `\r`,
`\x1c`, `\x1d`, `\x1e`, `\x1f` and the space. -/
def isSpaceChar (c : Char) : Bool :=
  c == ' ' || c == '\t' || c == '\n' || c == '\r' || c == '\x0b' || c == '\x0c' ||
  c == '\x1c' || c == '\x1d' || c == '\x1e' || c == '\x1f'

/-- The literal part of the pattern: `Test unit written to ./`. -/
def testUnitMarker : List Char := "Test unit written to ./".toList

/-- The `\b` assertion before the literal `T` (a word character): it holds
iff the position is the start of the text or the previous character is not a
word character. -/
def boundaryOk : Option Char → Bool
  | none => true
  | some c => !isWordChar c

/-- One attempt of the pattern at a fixed position: the word boundary must
hold against the previous character, the literal marker must be a prefix of
the remaining text, and the group `([^\s]+)` takes the maximal nonempty run
of non-whitespace characters after the marker. -/
def matchAt (prev : Option Char) (s : List Char) : Option (List Char) :=
  if boundaryOk prev && testUnitMarker.isPrefixOf s then
    let g := (s.drop testUnitMarker.length).takeWhile (fun c => !isSpaceChar c)
    if g.isEmpty then none else some g
  else none

/-- `re.search`: try the pattern at each position left to right, returning
the group of the first position that matches. -/
def searchAux : Option Char → List Char → Option (List Char)
  | _, [] => none
  | prev, c :: cs =>
    match matchAt prev (c :: cs) with
    | some g => some g
    | none => searchAux (some c) cs

/-- `FuzzTarget.get_test_case`: search the stack-trace string for the
pattern; on a match, join the output directory with the matched group,
otherwise return `None`. -/
def FuzzTarget.get_test_case (t : FuzzTarget) (error_string : String) : Option String :=
  match searchAux none error_string.toList with
  | some g => some (os.path.join t.out_dir (String.mk g))
  | none => none

/-! ### Bounded execution (`FuzzTarget.fuzz`) and confirmation -/

/-- External nondeterminism of one `fuzz` invocation: the ambient container
name (`utils.get_container_name()`), the outcome of
`process.communicate(timeout=duration)` (`none` models `TimeoutExpired`,
`some bytes` the captured stderr bytes), and the exit code observed by each
reproduce trial (`utils.execute`, indexed in trial order). -/
structure FuzzEnv where
  container_name : Option String
  communicate : Option (List Nat)
  reproTrial : Nat → Nat

/-- Process-control effects performed by `fuzz`, recorded as a trace. -/
inductive ProcAction
  | popen (cmd : List String)
  | kill
deriving DecidableEq, Repr

/-- The `run_fuzzer` shell command string built by `fuzz`, including the
corpus directory extension guarded by `if self.corpus_dir:`. -/
def runFuzzerCommand (t : FuzzTarget) (corpus_val : Option String) : String :=
  let base := "run_fuzzer " ++ t.target_name ++ " " ++ LIBFUZZER_OPTIONS
  match corpus_val with
  | none => base
  | some d => if d == "" then base else base ++ " " ++ d

/-- The full docker command list built by `fuzz`. -/
def fuzzCommand (t : FuzzTarget) (container : Option String)
    (corpus_val : Option String) : List String :=
  ["docker", "run", "--rm", "--privileged"] ++
  (match container with
   | some c => ["--volumes-from", c, "-e", "OUT=" ++ t.out_dir]
   | none => ["-v", t.out_dir ++ ":/out"]) ++
  ["-e", "FUZZING_ENGINE=libfuzzer", "-e", "SANITIZER=address",
   "-e", "RUN_FUZZER_MODE=interactive", "gcr.io/oss-fuzz-base/base-runner",
   "bash", "-c", runFuzzerCommand t corpus_val]

/-- The docker command list built by `is_reproducible` for a test case. -/
def reproduceCommand (t : FuzzTarget) (test_case : String) : List String :=
  ["docker", "run", "--rm", "--privileged",
   "-v", os.path.dirname t.target_path ++ ":/out",
   "-v", test_case ++ ":/testcase", "-t", "gcr.io/oss-fuzz-base/base-runner",
   "reproduce", t.target_name, "-runs=100"]

/-- `bytes.decode('ascii')`: succeeds iff every byte is below 128. -/
def decodeAscii (bs : List Nat) : Option String :=
  if bs.all (fun b => b < 128) then some (String.mk (bs.map Char.ofNat)) else none

/-- The `for _ in range(REPRODUCE_ATTEMPTS)` loop of `is_reproducible`:
trial `i` with `fuel` attempts remaining; returns the verdict and the number
of trials actually executed.  A nonzero exit code returns `True` at once. -/
def reproFrom (trial : Nat → Nat) : Nat → Nat → Bool × Nat
  | _, 0 => (false, 0)
  | i, fuel + 1 =>
    if trial i != 0 then (true, 1)
    else
      let r := reproFrom trial (i + 1) fuel
      (r.1, r.2 + 1)

/-- `FuzzTarget.is_reproducible`: up to `REPRODUCE_ATTEMPTS` sequential
trials; the verdict together with the number of trials executed. -/
def FuzzTarget.is_reproducible (t : FuzzTarget) (env : FuzzEnv)
    (test_case : String) : Bool × Nat :=
  let _ := reproduceCommand t test_case
  reproFrom env.reproTrial 0 REPRODUCE_ATTEMPTS

/-- `FuzzTarget.fuzz`: reads `self.corpus_dir` while building the command
(raising `AttributeError` when the attribute was never assigned), launches
the sandbox, and on `TimeoutExpired` returns `(None, None)` — the timeout
handler performs no kill, so no `ProcAction.kill` is ever traced.  Otherwise the
stderr bytes are decoded as ASCII, the test case extracted, and a crash is
returned only when `is_reproducible` confirms it. -/
def FuzzTarget.fuzz (t : FuzzTarget) (env : FuzzEnv) :
    Except PyError (Option String × Option String) × List ProcAction :=
  match t.corpus_attr with
  | none => (Except.error PyError.attributeError, [])
  | some corpus_val =>
    let command := fuzzCommand t env.container_name corpus_val
    match env.communicate with
    | none => (Except.ok (none, none), [ProcAction.popen command])
    | some errBytes =>
      match decodeAscii errBytes with
      | none => (Except.error PyError.unicodeDecodeError, [ProcAction.popen command])
      | some err_str =>
        match t.get_test_case err_str with
        | none => (Except.ok (none, none), [ProcAction.popen command])
        | some test_case =>
          if test_case == "" then (Except.ok (none, none), [ProcAction.popen command])
          else if (t.is_reproducible env test_case).1 then
            (Except.ok (some test_case, some err_str), [ProcAction.popen command])
          else (Except.ok (none, none), [ProcAction.popen command])

/-! ### Corpus download (`FuzzTarget.download_latest_corpus`) -/

/-- Outcome of `urllib.request.urlopen` + `zipfile` unpacking of the corpus
archive: an HTTP protocol error (`urllib.error.HTTPError`, the only caught
exception), a non-HTTP transport error (`urllib.error.URLError`), or the
archive's entries as (relative name, content) pairs. -/
inductive FetchResult
  | httpError
  | urlError
  | ok (entries : List (String × List Nat))
deriving DecidableEq, Repr

/-- External nondeterminism of one `download_latest_corpus` invocation. -/
structure DlEnv where
  out_dir_exists : Bool
  fetch : FetchResult
deriving DecidableEq, Repr

/-- The filesystem fragment the download touches: created directories and a
map from file path to content, most recent write first. -/
structure FS where
  dirs : List String
  files : List (String × List Nat)
deriving DecidableEq, Repr

/-- Write a file, shadowing any earlier write to the same path. -/
def FS.write (fs : FS) (p : String) (c : List Nat) : FS :=
  ⟨fs.dirs, (p, c) :: fs.files⟩

/-- Content of the file at `p`, the most recent write winning. -/
def FS.lookup (fs : FS) (p : String) : Option (List Nat) :=
  (fs.files.find? (fun e => e.1 == p)).map Prod.snd

/-- `os.makedirs(d, exist_ok=True)`. -/
def FS.makedirs (fs : FS) (d : String) : FS :=
  ⟨d :: fs.dirs, fs.files⟩

/-- `zipfile.ZipFile.extractall(dir)`: write each entry in archive order
under `dir`; entries already present on disk are overwritten, nothing is
deleted. -/
def extractAll (fs : FS) (dir : String) (entries : List (String × List Nat)) : FS :=
  entries.foldl (fun acc e => acc.write (os.path.join dir e.1) e.2) fs

/-- The per-target corpus directory `<out_dir>/corpus/<target_name>`. -/
def FuzzTarget.corpusDir (t : FuzzTarget) : String :=
  os.path.join3 t.out_dir "corpus" t.target_name

/-- The remote archive URL built by `download_latest_corpus`. -/
def FuzzTarget.corpusLink (t : FuzzTarget) : String :=
  "https://storage.googleapis.com/" ++ t.project_name.getD "" ++
  "-backup.clusterfuzz-external.appspot.com/corpus/libFuzzer/" ++
  t.project_name.getD "" ++ "_" ++ t.target_name ++ "/public.zip"

/-- `FuzzTarget.download_latest_corpus`: returns (result, filesystem,
whether a network fetch was attempted).  A falsy `project_name` or a missing
output directory return `None` before any fetch; `HTTPError` is caught and
returns `None`; a `URLError` propagates as an exception. -/
def FuzzTarget.download_latest_corpus (t : FuzzTarget) (env : DlEnv) (fs : FS) :
    Except PyError (Option String) × FS × Bool :=
  if pyFalsyStr t.project_name then (Except.ok none, fs, false)
  else if !env.out_dir_exists then (Except.ok none, fs, false)
  else
    let corpus_dir := t.corpusDir
    let fs1 := fs.makedirs corpus_dir
    match env.fetch with
    | FetchResult.httpError => (Except.ok none, fs1, true)
    | FetchResult.urlError => (Except.error PyError.urlError, fs1, true)
    | FetchResult.ok entries =>
      (Except.ok (some corpus_dir), extractAll fs1 corpus_dir entries, true)

/-! ### Spec-side definitions for refinement comparison -/

/-- Follows the spec's words for claim C2: the text contains the literal
marker `Test unit written to ./` immediately followed by a non-whitespace
character (no word-boundary requirement). -/
def specMarkerOccurs : List Char → Bool
  | [] => false
  | c :: cs =>
    (testUnitMarker.isPrefixOf (c :: cs) &&
      !((c :: cs).drop testUnitMarker.length |>.takeWhile (fun d => !isSpaceChar d)).isEmpty) ||
    specMarkerOccurs cs

/-- The character preceding position `i` of the text, `none` at the start. -/
def prevAt (s : List Char) (i : Nat) : Option Char :=
  if i = 0 then none else s.get? (i - 1)

/-- Position-indexed description of `re.search`: the group of the leftmost
position at which the pattern matches. -/
def reSearchSpec (s : List Char) : Option (List Char) :=
  (List.range s.length).findSome? (fun i => matchAt (prevAt s i) (s.drop i))

/-! ### Claim theorems -/

/-- C8: a freshly constructed `FuzzTarget` has no `corpus_dir` attribute, so
`fuzz()` raises `AttributeError` before launching any process. -/
theorem c8_fresh_fuzz_raises_attribute_error (target_path : String) (duration : Nat)
    (out_dir : String) (project_name : Option String) (env : FuzzEnv) :
    (FuzzTarget.init target_path duration out_dir project_name).fuzz env =
      (Except.error PyError.attributeError, []) := rfl

/-- C7: with `project_name` equal to `None`, `download_latest_corpus` returns
`None` immediately, leaves the filesystem untouched and attempts no fetch. -/
theorem c7_no_project_skips_download (t : FuzzTarget) (env : DlEnv) (fs : FS)
    (h : t.project_name = none) :
    t.download_latest_corpus env fs = (Except.ok none, fs, false) := by
  unfold FuzzTarget.download_latest_corpus
  simp [h, pyFalsyStr]

/-- C7 witness. -/
theorem c7_no_project_skips_download_witness :
    (FuzzTarget.mk "fuzz_a" 60 "/x/fuzz_a" "/out" none (some none)).download_latest_corpus
        ⟨true, FetchResult.httpError⟩ ⟨[], []⟩ = (Except.ok none, ⟨[], []⟩, false) :=
  c7_no_project_skips_download _ _ _ rfl

/-- C10: when the output directory does not exist, `download_latest_corpus`
returns `None` without raising, touches nothing and attempts no fetch. -/
theorem c10_missing_out_dir_soft_failure (t : FuzzTarget) (env : DlEnv) (fs : FS)
    (h : env.out_dir_exists = false) :
    t.download_latest_corpus env fs = (Except.ok none, fs, false) := by
  simp [FuzzTarget.download_latest_corpus, h]

/-- C10 witness. -/
theorem c10_missing_out_dir_soft_failure_witness :
    (FuzzTarget.mk "fuzz_a" 60 "/x/fuzz_a" "/out" (some "proj") (some none)).download_latest_corpus
        ⟨false, FetchResult.ok [("a", [1])]⟩ ⟨[], []⟩ = (Except.ok none, ⟨[], []⟩, false) :=
  c10_missing_out_dir_soft_failure _ _ _ rfl

/-- C9: when the captured stderr contains a byte outside ASCII, `fuzz`
raises `UnicodeDecodeError` instead of returning an outcome. -/
theorem c9_non_ascii_stderr_raises (t : FuzzTarget) (env : FuzzEnv)
    (cv : Option String) (bs : List Nat)
    (hc : t.corpus_attr = some cv) (he : env.communicate = some bs)
    (hb : ∃ b ∈ bs, 128 ≤ b) :
    (t.fuzz env).1 = Except.error PyError.unicodeDecodeError := by
  have hd : decodeAscii bs = none := by
    obtain ⟨b, hmem, hge⟩ := hb
    have : bs.all (fun b => b < 128) = false := by
      rw [List.all_eq_false]
      exact ⟨b, hmem, by simpa using hge⟩
    simp [decodeAscii, this]
  simp [FuzzTarget.fuzz, hc, he, hd]

/-- C9 witness. -/
theorem c9_non_ascii_stderr_raises_witness :
    ((FuzzTarget.mk "fuzz_a" 60 "/x/fuzz_a" "/out" none (some none)).fuzz
        ⟨none, some [200], fun _ => 0⟩).1 = Except.error PyError.unicodeDecodeError :=
  c9_non_ascii_stderr_raises _ _ none [200] rfl rfl ⟨200, by decide, by decide⟩

/-- The reproduce loop never executes more trials than it has fuel. -/
theorem reproFrom_count_le (trial : Nat → Nat) :
    ∀ fuel i, (reproFrom trial i fuel).2 ≤ fuel := by
  intro fuel
  induction fuel with
  | zero => intro i; simp [reproFrom]
  | succ n ih =>
    intro i
    simp only [reproFrom]
    split
    · simp
    · simpa using ih (i + 1)

/-- If every remaining trial observes a zero exit code, the loop exhausts
its fuel and returns `false`. -/
theorem reproFrom_all_zero (trial : Nat → Nat) :
    ∀ fuel i, (∀ j, j < fuel → trial (i + j) = 0) →
      reproFrom trial i fuel = (false, fuel) := by
  intro fuel
  induction fuel with
  | zero => intro i _; rfl
  | succ n ih =>
    intro i h
    have h0 : trial i = 0 := by simpa using h 0 (by omega)
    have hrec : reproFrom trial (i + 1) n = (false, n) := by
      apply ih
      intro j hj
      have := h (j + 1) (by omega)
      simpa [Nat.add_assoc, Nat.add_comm 1 j] using this
    simp [reproFrom, h0, hrec]

/-- The first trial with a nonzero exit code short-circuits the loop. -/
theorem reproFrom_first_nonzero (trial : Nat → Nat) :
    ∀ fuel i k, k < fuel → trial (i + k) ≠ 0 → (∀ j, j < k → trial (i + j) = 0) →
      reproFrom trial i fuel = (true, k + 1) := by
  intro fuel
  induction fuel with
  | zero => intro i k hk; omega
  | succ n ih =>
    intro i k hk hnz hz
    cases k with
    | zero =>
      have : trial i ≠ 0 := by simpa using hnz
      simp [reproFrom, this]
    | succ m =>
      have h0 : trial i = 0 := by simpa using hz 0 (by omega)
      have hrec : reproFrom trial (i + 1) n = (true, m + 1) := by
        apply ih (i + 1) m (by omega)
        · have := hnz
          simpa [Nat.add_assoc, Nat.add_comm 1 m] using this
        · intro j hj
          have := hz (j + 1) (by omega)
          simpa [Nat.add_assoc, Nat.add_comm 1 j] using this
      simp [reproFrom, h0, hrec]

/-- C3: `is_reproducible` executes at most 10 sequential trials; the first
trial with a nonzero exit code returns `true` immediately after `k + 1`
trials, and ten consecutive zero exit codes return `false` after all 10. -/
theorem c3_is_reproducible_bounded_short_circuit (t : FuzzTarget) (env : FuzzEnv)
    (tc : String) :
    (t.is_reproducible env tc).2 ≤ REPRODUCE_ATTEMPTS ∧
    ((∀ i, i < REPRODUCE_ATTEMPTS → env.reproTrial i = 0) →
      t.is_reproducible env tc = (false, REPRODUCE_ATTEMPTS)) ∧
    (∀ k, k < REPRODUCE_ATTEMPTS → env.reproTrial k ≠ 0 →
      (∀ j, j < k → env.reproTrial j = 0) →
      t.is_reproducible env tc = (true, k + 1)) := by
  refine ⟨?_, ?_, ?_⟩
  · exact reproFrom_count_le env.reproTrial REPRODUCE_ATTEMPTS 0
  · intro h
    exact reproFrom_all_zero env.reproTrial REPRODUCE_ATTEMPTS 0 (by simpa using h)
  · intro k hk hnz hz
    exact reproFrom_first_nonzero env.reproTrial REPRODUCE_ATTEMPTS 0 k hk
      (by simpa using hnz) (by simpa using hz)

/-- C3 witness: the trial sequence that reproduces on the third trial stops
after 3 trials with `true`; the all-zero sequence runs all 10 and returns
`false`. -/
theorem c3_is_reproducible_bounded_short_circuit_witness :
    (FuzzTarget.mk "fuzz_a" 60 "/x/fuzz_a" "/out" none (some none)).is_reproducible
        ⟨none, none, fun i => if i == 2 then 1 else 0⟩ "tc" = (true, 3) ∧
    (FuzzTarget.mk "fuzz_a" 60 "/x/fuzz_a" "/out" none (some none)).is_reproducible
        ⟨none, none, fun _ => 0⟩ "tc" = (false, 10) := by
  constructor
  · exact (c3_is_reproducible_bounded_short_circuit _ _ _).2.2 2 (by decide)
      (by decide) (by decide)
  · exact (c3_is_reproducible_bounded_short_circuit _ _ _).2.1 (by decide)

/-- C1: `fuzz` returns a crash (a non-`None` test case) only when
`is_reproducible` has returned `true` for that test case. -/
theorem c1_crash_only_after_confirmation (t : FuzzTarget) (env : FuzzEnv)
    (tc : String) (es : Option String)
    (h : (t.fuzz env).1 = Except.ok (some tc, es)) :
    (t.is_reproducible env tc).1 = true := by
  unfold FuzzTarget.fuzz at h
  repeat' split at h
  all_goals simp_all [FuzzTarget.is_reproducible]

/-- C1 witness: a run whose stderr names a test case and whose first trial
reproduces returns the crash, and confirmation indeed holds for it. -/
theorem c1_crash_only_after_confirmation_witness :
    ((FuzzTarget.mk "fuzz_a" 60 "/x/fuzz_a" "/out" none (some none)).is_reproducible
        ⟨none, some ("Test unit written to ./crash-1".toList.map Char.toNat), fun _ => 1⟩
        "/out/crash-1").1 = true :=
  c1_crash_only_after_confirmation _ _ "/out/crash-1"
    (some "Test unit written to ./crash-1") (by rfl)

/-- C4 counterexample: on a run that hits the deadline, `fuzz` does return
`(None, None)`, but its effect trace contains no kill of the child process —
the `TimeoutExpired` handler only logs and returns, so the claim that the
child is forcibly terminated is false on the code. -/
theorem c4_counterexample :
    ((FuzzTarget.mk "fuzz_a" 60 "/x/fuzz_a" "/out" none (some none)).fuzz
        ⟨none, none, fun _ => 0⟩).1 = Except.ok (none, none) ∧
    ProcAction.kill ∉
      ((FuzzTarget.mk "fuzz_a" 60 "/x/fuzz_a" "/out" none (some none)).fuzz
        ⟨none, none, fun _ => 0⟩).2 := by
  constructor
  · rfl
  · decide

/-- C4 amended: when the sandboxed process is still running at the deadline
(`communicate` raises `TimeoutExpired`), `fuzz` returns `(None, None)` ("no
crash") without raising and without attempting extraction or confirmation;
its only process effect is the launch — the code never kills the child. -/
theorem c4_timeout_returns_no_crash (t : FuzzTarget) (env : FuzzEnv)
    (cv : Option String) (hc : t.corpus_attr = some cv)
    (ht : env.communicate = none) :
    t.fuzz env =
      (Except.ok (none, none), [ProcAction.popen (fuzzCommand t env.container_name cv)]) ∧
    ProcAction.kill ∉ (t.fuzz env).2 := by
  have hf : t.fuzz env =
      (Except.ok (none, none), [ProcAction.popen (fuzzCommand t env.container_name cv)]) := by
    simp [FuzzTarget.fuzz, hc, ht]
  refine ⟨hf, ?_⟩
  rw [hf]
  simp

/-- C4 witness. -/
theorem c4_timeout_returns_no_crash_witness :
    (FuzzTarget.mk "b" 1 "/y/b" "/o" none (some (some "/corp"))).fuzz
        ⟨some "cont", none, fun _ => 0⟩ =
      (Except.ok (none, none),
        [ProcAction.popen (fuzzCommand (FuzzTarget.mk "b" 1 "/y/b" "/o" none
          (some (some "/corp"))) (some "cont") (some "/corp"))]) ∧
    ProcAction.kill ∉
      ((FuzzTarget.mk "b" 1 "/y/b" "/o" none (some (some "/corp"))).fuzz
        ⟨some "cont", none, fun _ => 0⟩).2 :=
  c4_timeout_returns_no_crash _ _ (some "/corp") rfl rfl

/-- C5 counterexample: a non-HTTP transport error (`URLError`, e.g. a
connection failure) on the archive fetch is not caught — the call raises
instead of returning `None`. -/
theorem c5_counterexample :
    ((FuzzTarget.mk "fuzz_a" 60 "/x/fuzz_a" "/out" (some "proj") (some none)).download_latest_corpus
        ⟨true, FetchResult.urlError⟩ ⟨[], []⟩).1 = Except.error PyError.urlError := by
  decide

/-- C5 amended: only HTTP protocol errors (`urllib.error.HTTPError`, any
status class) are caught: they return `None` without raising and write no
file; a non-HTTP transport error (`URLError`) propagates as an exception
whenever the fetch is attempted. -/
theorem c5_http_error_soft_url_error_raises (t : FuzzTarget) (env : DlEnv) (fs : FS) :
    (env.fetch = FetchResult.httpError →
      (t.download_latest_corpus env fs).1 = Except.ok none ∧
      ((t.download_latest_corpus env fs).2.1).files = fs.files) ∧
    (env.fetch = FetchResult.urlError → (t.download_latest_corpus env fs).2.2 = true →
      (t.download_latest_corpus env fs).1 = Except.error PyError.urlError) := by
  unfold FuzzTarget.download_latest_corpus
  constructor
  · intro h
    split
    · exact ⟨rfl, rfl⟩
    · split
      · exact ⟨rfl, rfl⟩
      · simp [h, FS.makedirs]
  · intro h
    split
    · intro hfetch; simp at hfetch
    · split
      · intro hfetch; simp at hfetch
      · simp [h]

/-- C5 witness. -/
theorem c5_http_error_soft_url_error_raises_witness :
    (((FuzzTarget.mk "fuzz_a" 60 "/x/fuzz_a" "/out" (some "proj") (some none)).download_latest_corpus
        ⟨true, FetchResult.httpError⟩ ⟨[], [("/keep", [7])]⟩).1 = Except.ok none ∧
      (((FuzzTarget.mk "fuzz_a" 60 "/x/fuzz_a" "/out" (some "proj") (some none)).download_latest_corpus
        ⟨true, FetchResult.httpError⟩ ⟨[], [("/keep", [7])]⟩).2.1).files = [("/keep", [7])]) ∧
    ((FuzzTarget.mk "fuzz_b" 30 "/x/fuzz_b" "/out" (some "p2") (some none)).download_latest_corpus
        ⟨true, FetchResult.urlError⟩ ⟨[], []⟩).1 = Except.error PyError.urlError := by
  constructor
  · exact (c5_http_error_soft_url_error_raises _ _ _).1 rfl
  · exact (c5_http_error_soft_url_error_raises _ _ _).2 rfl (by decide)

/-- `extractall` prepends the archive's entries (in reverse write order,
joined under `dir`) to the existing file list. -/
theorem extractAll_files (dir : String) :
    ∀ (entries : List (String × List Nat)) (fs : FS),
      (extractAll fs dir entries).files =
        (entries.map (fun e => (os.path.join dir e.1, e.2))).reverse ++ fs.files := by
  intro entries
  induction entries with
  | nil => intro fs; simp [extractAll]
  | cons e es ih =>
    intro fs
    have hstep : extractAll fs dir (e :: es) =
        extractAll (fs.write (os.path.join dir e.1) e.2) dir es := rfl
    rw [hstep, ih]
    simp [FS.write]

/-- C6 counterexample: two successive downloads, the first archive holding
entry `a`, the second holding entry `b`: after the second call the corpus
directory still holds `a` from the first archive, so it does not contain
only the second archive's entries. -/
theorem c6_counterexample :
    (((FuzzTarget.mk "fuzz_a" 60 "/x/fuzz_a" "/out" (some "proj") (some none)).download_latest_corpus
        ⟨true, FetchResult.ok [("b", [2])]⟩
        (((FuzzTarget.mk "fuzz_a" 60 "/x/fuzz_a" "/out" (some "proj") (some none)).download_latest_corpus
            ⟨true, FetchResult.ok [("a", [1])]⟩ ⟨[], []⟩).2.1)).2.1).lookup
        "/out/corpus/fuzz_a/a" = some [1] ∧
    (((FuzzTarget.mk "fuzz_a" 60 "/x/fuzz_a" "/out" (some "proj") (some none)).download_latest_corpus
        ⟨true, FetchResult.ok [("b", [2])]⟩
        (((FuzzTarget.mk "fuzz_a" 60 "/x/fuzz_a" "/out" (some "proj") (some none)).download_latest_corpus
            ⟨true, FetchResult.ok [("a", [1])]⟩ ⟨[], []⟩).2.1)).2.1).lookup
        "/out/corpus/fuzz_a/b" = some [2] := by
  decide

/-- C6 amended: a second successful download extracts the new archive into
the same corpus directory without clearing it: a path named by the second
archive gets that archive's (last-written) content, and every other path
keeps whatever the first download left — the directories merge, with the
newest archive winning on name clashes. -/
theorem c6_second_download_merges_with_overwrite (t : FuzzTarget)
    (env1 env2 : DlEnv) (fs0 : FS) (E1 E2 : List (String × List Nat))
    (hp : pyFalsyStr t.project_name = false)
    (ho1 : env1.out_dir_exists = true) (ho2 : env2.out_dir_exists = true)
    (h1 : env1.fetch = FetchResult.ok E1) (h2 : env2.fetch = FetchResult.ok E2)
    (p : String) :
    ((t.download_latest_corpus env2
        ((t.download_latest_corpus env1 fs0).2.1)).2.1).lookup p =
      match E2.reverse.find? (fun e => os.path.join t.corpusDir e.1 == p) with
      | some e => some e.2
      | none => ((t.download_latest_corpus env1 fs0).2.1).lookup p := by
  have hdl : ∀ (env : DlEnv) (fs : FS) (E : List (String × List Nat)),
      env.out_dir_exists = true → env.fetch = FetchResult.ok E →
      (t.download_latest_corpus env fs).2.1 = extractAll (fs.makedirs t.corpusDir) t.corpusDir E := by
    intro env fs E ho hf
    simp [FuzzTarget.download_latest_corpus, hp, ho, hf]
  rw [hdl env2 _ E2 ho2 h2, hdl env1 _ E1 ho1 h1]
  unfold FS.lookup
  rw [extractAll_files]
  have hmfiles : ((extractAll (fs0.makedirs t.corpusDir) t.corpusDir E1).makedirs t.corpusDir).files =
      (extractAll (fs0.makedirs t.corpusDir) t.corpusDir E1).files := rfl
  rw [hmfiles, List.find?_append, ← List.map_reverse, List.find?_map]
  cases hfind : E2.reverse.find? (fun e => os.path.join t.corpusDir e.1 == p) with
  | none =>
    have : E2.reverse.find?
        ((fun e => e.1 == p) ∘ fun e => (os.path.join t.corpusDir e.1, e.2)) = none := by
      simpa [Function.comp] using hfind
    simp [this, Option.or]
  | some e =>
    have : E2.reverse.find?
        ((fun e => e.1 == p) ∘ fun e => (os.path.join t.corpusDir e.1, e.2)) = some e := by
      simpa [Function.comp] using hfind
    simp [this, Option.or]

/-- C6 witness. -/
theorem c6_second_download_merges_with_overwrite_witness :
    (((FuzzTarget.mk "fuzz_a" 60 "/x/fuzz_a" "/out" (some "proj") (some none)).download_latest_corpus
        ⟨true, FetchResult.ok [("a", [9]), ("c", [3])]⟩
        (((FuzzTarget.mk "fuzz_a" 60 "/x/fuzz_a" "/out" (some "proj") (some none)).download_latest_corpus
            ⟨true, FetchResult.ok [("a", [1])]⟩ ⟨[], []⟩).2.1)).2.1).lookup
        "/out/corpus/fuzz_a/a" =
      match [("a", [9]), ("c", [3])].reverse.find?
          (fun e => os.path.join
            (FuzzTarget.mk "fuzz_a" 60 "/x/fuzz_a" "/out" (some "proj") (some none)).corpusDir
            e.1 == "/out/corpus/fuzz_a/a") with
      | some e => some e.2
      | none =>
        (((FuzzTarget.mk "fuzz_a" 60 "/x/fuzz_a" "/out" (some "proj") (some none)).download_latest_corpus
            ⟨true, FetchResult.ok [("a", [1])]⟩ ⟨[], []⟩).2.1).lookup "/out/corpus/fuzz_a/a" :=
  c6_second_download_merges_with_overwrite
    (FuzzTarget.mk "fuzz_a" 60 "/x/fuzz_a" "/out" (some "proj") (some none))
    ⟨true, FetchResult.ok [("a", [1])]⟩ ⟨true, FetchResult.ok [("a", [9]), ("c", [3])]⟩
    ⟨[], []⟩ [("a", [1])] [("a", [9]), ("c", [3])]
    rfl rfl rfl rfl rfl "/out/corpus/fuzz_a/a"

/-- The left-to-right scan from position `i` finds the first position `j ≥ i`
at which the pattern matches. -/
theorem searchAux_drop (s : List Char) :
    ∀ n i, s.length - i = n →
      searchAux (prevAt s i) (s.drop i) =
        (List.range' i n).findSome? (fun j => matchAt (prevAt s j) (s.drop j)) := by
  intro n
  induction n with
  | zero =>
    intro i h
    have hle : s.length ≤ i := by omega
    rw [List.drop_eq_nil_of_le hle]
    simp [searchAux]
  | succ n ih =>
    intro i h
    have hi : i < s.length := by omega
    have hdrop : s.drop i = s[i] :: s.drop (i + 1) := List.drop_eq_getElem_cons hi
    have hprev : prevAt s (i + 1) = some s[i] := by
      simp [prevAt, List.get?_eq_getElem?, List.getElem?_eq_getElem hi]
    have hrec := ih (i + 1) (by omega)
    rw [hprev] at hrec
    rw [List.range'_succ, List.findSome?_cons, hdrop]
    simp only [searchAux]
    cases hm : matchAt (prevAt s i) (s[i] :: s.drop (i + 1)) with
    | some g => simp [hdrop, hm]
    | none => simp [hdrop, hm, hrec]

/-- `re.search` as implemented by the scan agrees with the position-indexed
first-match description. -/
theorem searchAux_spec (s : List Char) : searchAux none s = reSearchSpec s := by
  have h := searchAux_drop s s.length 0 (by simp)
  simpa [reSearchSpec, prevAt, List.range_eq_range'] using h

/-- C2 counterexample: the text `xTest unit written to ./crash-abc` contains
the literal marker followed by a non-whitespace path, yet `get_test_case`
returns `None`, because the regex requires a word boundary before `Test` and
`x` is a word character. -/
theorem c2_counterexample :
    specMarkerOccurs ("xTest unit written to ./crash-abc".toList) = true ∧
    (FuzzTarget.mk "fuzz_a" 60 "/x/fuzz_a" "/out" none (some none)).get_test_case
        "xTest unit written to ./crash-abc" = none := by
  decide

/-- C2 amended: for every ASCII diagnostic text (the only texts `fuzz`
produces, since the stderr bytes pass `decode('ascii')`), `get_test_case`
returns the output directory path-joined with the group of the leftmost
position at which the marker occurs preceded by a word boundary (start of
text or a non-word character) and followed by at least one non-whitespace
character, the group being the maximal non-whitespace run after the marker;
it returns `None` when no such position exists. -/
theorem c2_get_test_case_first_boundary_match (t : FuzzTarget) (s : String)
    (_hascii : ∀ c ∈ s.toList, c.toNat < 128) :
    t.get_test_case s =
      (reSearchSpec s.toList).map (fun g => os.path.join t.out_dir (String.mk g)) := by
  unfold FuzzTarget.get_test_case
  rw [searchAux_spec]
  cases h : reSearchSpec s.toList <;> simp [h]

/-- C2 amended witness. -/
theorem c2_get_test_case_first_boundary_match_witness :
    (∀ c ∈ ("?Test unit written to ./crash-7 tail" : String).toList, c.toNat < 128) ∧
    (FuzzTarget.mk "fuzz_a" 60 "/x/fuzz_a" "/out" none (some none)).get_test_case
        "?Test unit written to ./crash-7 tail" =
      (reSearchSpec ("?Test unit written to ./crash-7 tail" : String).toList).map
        (fun g => os.path.join
          (FuzzTarget.mk "fuzz_a" 60 "/x/fuzz_a" "/out" none (some none)).out_dir
          (String.mk g)) :=
  ⟨by decide, c2_get_test_case_first_boundary_match
    (FuzzTarget.mk "fuzz_a" 60 "/x/fuzz_a" "/out" none (some none))
    "?Test unit written to ./crash-7 tail" (by decide)⟩
